import Mathlib

/-!
Shallow embedding of the slot-assignment, interruption/replacement and
completion engine of the evaluation web form
(src/heroku_form/code/form_implementation.py, src/heroku_form/code/config.py),
together with proofs checking the natural-language specification against it.

Timestamps (Python time.time) are modelled as natural numbers; the random
choice in select_replacement_paper (random.choice) is modelled by an
arbitrary index parameter pick, so every possible random outcome is covered.
The JSON record collection is modelled as a list of records; Python object
identity of a record inside the collection is modelled by its position in
the list (enumRecs pairs each record with its index).
-/

namespace EmergingInfectionForm

/-- One per-(participant, slot) evaluation record, as stored in
evaluation_records.json and read by form_implementation.py. -/
structure EvalRecord where
  participant_id : String
  slot : Nat
  paper_id : String
  has_summary : Bool
  status : String
  processed : Bool
  start_timestamp : Option Nat
  submit_timestamp : Option Nat
  work_duration : Int
  excluded_papers : List String
  evaluation : String
  action : String
  summary : String
deriving DecidableEq

/-- The evaluation_data dict passed to handle_completion; a field is none
when the corresponding key is missing (Python dict.get with default ""). -/
structure EvalData where
  evaluation : Option String
  action : Option String
  summary : Option String
deriving DecidableEq

/-- Pair each record with its position in the collection, starting at n.
This models Python object identity of a list element by its index. -/
def enumRecs : Nat → List EvalRecord → List (Nat × EvalRecord)
  | _, [] => []
  | n, r :: rs => (n, r) :: enumRecs (n + 1) rs

/-- Ascending sort by the slot field, as participant_records.sort
(key slot); Python list.sort is stable, as is insertion sort. -/
def sortBySlot (l : List (Nat × EvalRecord)) : List (Nat × EvalRecord) :=
  List.insertionSort (fun a b => a.2.slot ≤ b.2.slot) l

/-- The records of one participant, with their positions in the collection:
[r for r in records if r.get("participant_id") == participant_id]. -/
def participantPairs (pid : String) (records : List EvalRecord) :
    List (Nat × EvalRecord) :=
  (enumRecs 0 records).filter (fun p => p.2.participant_id == pid)

/-- The selection predicate of get_current_slot_for_participant:
record.get("status") == "assigned" and not record.get("processed"). -/
def gcsPred (r : EvalRecord) : Bool :=
  r.status == "assigned" && !r.processed

/-- Which user-visible message get_current_slot_for_participant emits
(st.error for an empty store, st.error for a participant with no records,
st.info when a slot is started, st.success when all slots are complete). -/
inductive GCSOutcome where
  | storeEmpty
  | participantNotFound
  | slotStarted
  | allComplete
deriving DecidableEq

/-- Result of get_current_slot_for_participant: the persisted collection,
the returned record (None modelled as none), the position of the returned
record in the collection, and the emitted message kind. -/
structure GCSResult where
  records : List EvalRecord
  result : Option EvalRecord
  chosen : Option Nat
  outcome : GCSOutcome
deriving DecidableEq

/-- get_current_slot_for_participant (form_implementation.py, lines 222-260):
filter to the participant, sort ascending by slot, return the first record
with status "assigned" and processed false after stamping start_timestamp
with now and persisting; None otherwise. -/
def get_current_slot_for_participant (pid : String) (now : Nat)
    (records : List EvalRecord) : GCSResult :=
  if records.isEmpty then ⟨records, none, none, .storeEmpty⟩
  else if (participantPairs pid records).isEmpty then
    ⟨records, none, none, .participantNotFound⟩
  else
    match (sortBySlot (participantPairs pid records)).find?
        (fun p => gcsPred p.2) with
    | some (i, r) =>
        ⟨records.set i { r with start_timestamp := some now },
         some { r with start_timestamp := some now }, some i, .slotStarted⟩
    | none => ⟨records, none, none, .allComplete⟩

/-- The progress dict returned by get_participant_progress. -/
structure Progress where
  completed_slots : Nat
  current_slot : Nat
  total_slots : Nat
deriving DecidableEq

/-- Count of the participant's records with status "completed". -/
def completedPairsCount (pid : String) (records : List EvalRecord) : Nat :=
  ((participantPairs pid records).filter
    (fun p => p.2.status == "completed")).length

/-- get_participant_progress (form_implementation.py, lines 262-291):
no records gives the fresh-start dict; otherwise completed count plus the
slot of the first record (in slot order) whose status is not "completed",
with sentinel 5 when every record is completed. -/
def get_participant_progress (pid : String) (records : List EvalRecord) :
    Progress :=
  if (participantPairs pid records).isEmpty then ⟨0, 1, 4⟩
  else
    match (sortBySlot (participantPairs pid records)).find?
        (fun p => !(p.2.status == "completed")) with
    | some q => ⟨completedPairsCount pid records, q.2.slot, 4⟩
    | none => ⟨completedPairsCount pid records, 5, 4⟩

/-- The record-matching predicate of handle_interruption: participant_id,
slot and paper_id all equal. -/
def matchIRec (pid : String) (slot : Nat) (paper : String)
    (r : EvalRecord) : Bool :=
  r.participant_id == pid && r.slot == slot && r.paper_id == paper

/-- Lines 325-329 of form_implementation.py: append paper to
excluded_papers if it is not already present. -/
def addExclusion (r : EvalRecord) (paper : String) : EvalRecord :=
  if r.excluded_papers.contains paper then r
  else { r with excluded_papers := r.excluded_papers ++ [paper] }

/-- The fixed six-paper catalog hardcoded in select_replacement_paper. -/
def allPapers : List String := ["1", "2", "3", "4", "5", "6"]

/-- select_replacement_paper (form_implementation.py, lines 358-381):
available papers are the catalog minus excluded_papers; none when empty,
otherwise random.choice, modelled by the arbitrary index pick. -/
def select_replacement_paper (pick : Nat) (r : EvalRecord) : Option String :=
  if ((allPapers.filter (fun p => !(r.excluded_papers.contains p))).isEmpty)
  then none
  else (allPapers.filter (fun p => !(r.excluded_papers.contains p)))[pick %
    (allPapers.filter (fun p => !(r.excluded_papers.contains p))).length]?

/-- handle_interruption (form_implementation.py, lines 301-356): find the
first record matching (participant_id, slot, paper_id), add the paper to
its exclusion list, pick a replacement; on success overwrite paper_id,
status and start_timestamp and persist, on failure persist nothing. -/
def handle_interruption (pick : Nat) (pid : String) (slot : Nat)
    (paper : String) (records : List EvalRecord) : List EvalRecord × Bool :=
  if records.isEmpty then (records, false)
  else
    match (enumRecs 0 records).find? (fun p => matchIRec pid slot paper p.2)
    with
    | none => (records, false)
    | some (i, r) =>
        match select_replacement_paper pick (addExclusion r paper) with
        | some rep =>
            (records.set i { addExclusion r paper with
              paper_id := rep, status := "assigned",
              start_timestamp := none }, true)
        | none => (records, false)

/-- The record-matching predicate of handle_completion: participant_id and
slot equal and processed false (paper_id is not matched). -/
def matchCRec (pid : String) (slot : Nat) (r : EvalRecord) : Bool :=
  r.participant_id == pid && r.slot == slot && !r.processed

/-- Lines 493-495 of form_implementation.py:
start_time = record.get("start_timestamp", submit_time);
work_duration = int(submit_time - start_time) if start_time else 0.
A missing key yields submit_time - submit_time = 0; a null value is falsy
and yields 0; a zero value is also falsy and yields 0. -/
def computeWorkDuration (now : Nat) (start : Option Nat) : Int :=
  match start with
  | none => 0
  | some s => if s == 0 then 0 else (now : Int) - (s : Int)

/-- handle_completion (form_implementation.py, lines 468-526): find the
first record matching (participant_id, slot) with processed false, mark it
completed with timestamps, duration and the three text fields, persist. -/
def handle_completion (now : Nat) (pid : String) (slot : Nat)
    (data : EvalData) (records : List EvalRecord) :
    List EvalRecord × Bool :=
  if records.isEmpty then (records, false)
  else
    match (enumRecs 0 records).find? (fun p => matchCRec pid slot p.2) with
    | none => (records, false)
    | some (i, r) =>
        (records.set i { r with
          status := "completed", processed := true,
          submit_timestamp := some now,
          work_duration := computeWorkDuration now r.start_timestamp,
          evaluation := data.evaluation.getD "",
          action := data.action.getD "",
          summary := data.summary.getD "" }, true)

/-- One engine call, for reasoning about arbitrary later operation
sequences. -/
inductive Op where
  | getslot (pid : String) (now : Nat)
  | interrupt (pick : Nat) (pid : String) (slot : Nat) (paper : String)
  | complete (now : Nat) (pid : String) (slot : Nat) (data : EvalData)

/-- The persisted collection after one engine call. -/
def applyOp (l : List EvalRecord) (op : Op) : List EvalRecord :=
  match op with
  | .getslot pid now => (get_current_slot_for_participant pid now l).records
  | .interrupt pick pid slot paper =>
      (handle_interruption pick pid slot paper l).1
  | .complete now pid slot data => (handle_completion now pid slot data l).1

/-- The persisted collection after a sequence of engine calls. -/
def applyOps (l : List EvalRecord) (ops : List Op) : List EvalRecord :=
  ops.foldl applyOp l

/-- RESULTS_HEADERS (config.py, lines 36-40): the header row of the audit
mirror worksheet, written by get_results_worksheet. -/
def RESULTS_HEADERS : List String :=
  ["participant_name", "has_summary", "paper_id",
   "start_time", "end_time", "answer_time",
   "action", "evaluation", "summary", "timestamp"]

/-- The row save_interruption_to_sheets appends (form_implementation.py,
lines 392-403); the two datetime.now strings are passed in opaque. -/
def interruption_row (participant_name interrupted_paper replacement_paper
    start_time timestamp : String) : List String :=
  [participant_name, "", interrupted_paper, start_time, "", "",
   "", "INTERRUPTED (replaced with " ++ replacement_paper ++ ")", "",
   timestamp]

/-- Python str of a bool, used for the has_summary cell. -/
def boolStr (b : Bool) : String := if b then "True" else "False"

/-- The row save_completion_to_sheets appends (form_implementation.py,
lines 542-553); the formatted datetime strings are passed in opaque, and
participant_name falls back to participant_id as in the source. -/
def completion_row (r : EvalRecord) (start_str end_str ts : String) :
    List String :=
  [r.participant_id, boolStr r.has_summary, r.paper_id, start_str, end_str,
   toString r.work_duration, r.evaluation, r.action, r.summary, ts]

/-! ## Concrete sample data for witnesses and counterexamples -/

/-- Shorthand constructor for sample records. -/
def mkRec (pid : String) (slot : Nat) (paper : String) (status : String)
    (processed : Bool) (ex : List String := [])
    (start : Option Nat := none) : EvalRecord :=
  ⟨pid, slot, paper, false, status, processed, start, none, 0, ex, "", "",
   ""⟩

/-- A small sample collection: alice with slots 1 and 2 still assigned and
slot 3 completed, bob with slot 1 assigned; deliberately stored out of
slot order. -/
def demoRecords : List EvalRecord :=
  [mkRec "alice" 2 "2" "assigned" false, mkRec "bob" 1 "3" "assigned" false,
   mkRec "alice" 1 "1" "assigned" false,
   mkRec "alice" 3 "4" "completed" true]

/-- A participant whose single record has status "assigned" but
processed true: the selection engine skips it while the progress reporter
still counts it as the current slot. -/
def c3CexRecords : List EvalRecord := [mkRec "p" 1 "1" "assigned" true]

/-- A record whose exclusion list already holds a duplicated id. -/
def c6CexRecords : List EvalRecord :=
  [mkRec "p" 1 "3" "assigned" false ["3", "3"]]

/-- A record whose start_timestamp is the (falsy) epoch value zero. -/
def c7CexRecords : List EvalRecord :=
  [mkRec "p" 1 "1" "assigned" false [] (some 0)]

/-- A record whose exclusion list already exhausts the whole catalog. -/
def c4Records : List EvalRecord :=
  [mkRec "p" 1 "6" "assigned" false ["1", "2", "3", "4", "5", "6"]]

/-- Four freshly seeded records for one participant, used as a
well-formed state for witnesses. -/
def aliceFresh : List EvalRecord :=
  [mkRec "alice" 1 "1" "assigned" false, mkRec "alice" 2 "2" "assigned" false,
   mkRec "alice" 3 "3" "assigned" false,
   mkRec "alice" 4 "4" "assigned" false]

/-- One assigned record carrying a nonzero start timestamp. -/
def c7WitRecords : List EvalRecord :=
  [mkRec "p" 1 "1" "assigned" false [] (some 40)]

/-- Four completed records for one participant. -/
def aliceDone : List EvalRecord :=
  [mkRec "alice" 1 "1" "completed" true, mkRec "alice" 2 "2" "completed" true,
   mkRec "alice" 3 "3" "completed" true,
   mkRec "alice" 4 "4" "completed" true]

/-! ## Helper lemmas -/

theorem mem_enumRecs {n : Nat} {l : List EvalRecord} {i : Nat}
    {r : EvalRecord} :
    (i, r) ∈ enumRecs n l ↔ ∃ k, i = n + k ∧ l[k]? = some r := by
  induction l generalizing n with
  | nil => simp [enumRecs]
  | cons x xs ih =>
    simp only [enumRecs, List.mem_cons, Prod.mk.injEq, ih]
    constructor
    · rintro (⟨hi, hx⟩ | ⟨k, hk, hget⟩)
      · exact ⟨0, by simpa using hi, by simp [hx]⟩
      · exact ⟨k + 1, by omega, by simpa using hget⟩
    · rintro ⟨k, hk, hget⟩
      cases k with
      | zero => left; constructor
                · omega
                · simpa using hget.symm
      | succ m => right; exact ⟨m, by omega, by simpa using hget⟩

theorem enumRecs_ne_nil {l : List EvalRecord} {f : Nat × EvalRecord → Bool}
    {x : Nat × EvalRecord} (hf : (enumRecs 0 l).find? f = some x) :
    l.isEmpty = false := by
  cases l with
  | nil => simp [enumRecs] at hf
  | cons y ys => rfl

theorem mem_sortBySlot {x : Nat × EvalRecord} {l : List (Nat × EvalRecord)} :
    x ∈ sortBySlot l ↔ x ∈ l :=
  (List.perm_insertionSort _ l).mem_iff

theorem sorted_sortBySlot (l : List (Nat × EvalRecord)) :
    (sortBySlot l).Sorted (fun a b => a.2.slot ≤ b.2.slot) := by
  haveI : IsTotal (Nat × EvalRecord) (fun a b => a.2.slot ≤ b.2.slot) :=
    ⟨fun a b => Nat.le_total _ _⟩
  haveI : IsTrans (Nat × EvalRecord) (fun a b => a.2.slot ≤ b.2.slot) :=
    ⟨fun _ _ _ => Nat.le_trans⟩
  exact List.sorted_insertionSort _ l

theorem find?_min_slot {l : List (Nat × EvalRecord)}
    {p : Nat × EvalRecord → Bool} {x : Nat × EvalRecord}
    (hs : l.Sorted (fun a b => a.2.slot ≤ b.2.slot))
    (hf : l.find? p = some x) :
    ∀ y ∈ l, p y = true → x.2.slot ≤ y.2.slot := by
  induction l with
  | nil => simp at hf
  | cons z zs ih =>
    rw [List.find?_cons] at hf
    rw [List.sorted_cons] at hs
    intro y hy hpy
    cases hpz : p z with
    | true =>
      rw [hpz] at hf
      cases hf
      rcases List.mem_cons.mp hy with hyz | hyzs
      · exact le_of_eq (by rw [hyz])
      · exact hs.1 y hyzs
    | false =>
      rw [hpz] at hf
      rcases List.mem_cons.mp hy with hyz | hyzs
      · rw [hyz] at hpy; simp [hpz] at hpy
      · exact ih hs.2 hf y hyzs hpy

theorem find?_congr {α : Type} {l : List α} {p q : α → Bool}
    (h : ∀ x ∈ l, p x = q x) : l.find? p = l.find? q := by
  induction l with
  | nil => rfl
  | cons z zs ih =>
    rw [List.find?_cons, List.find?_cons, h z (List.mem_cons_self z zs)]
    cases q z with
    | true => rfl
    | false => exact ih (fun x hx => h x (List.mem_cons_of_mem z hx))

theorem filter_length_set_succ {α : Type} {l : List α} {i : Nat} {r r' : α}
    {p : α → Bool} (hget : l[i]? = some r) (hr : p r = false)
    (hr' : p r' = true) :
    ((l.set i r').filter p).length = (l.filter p).length + 1 := by
  induction l generalizing i with
  | nil => simp at hget
  | cons x xs ih =>
    cases i with
    | zero =>
      simp only [List.getElem?_cons_zero, Option.some.injEq] at hget
      subst hget
      simp [List.set, List.filter, hr, hr']
    | succ m =>
      simp only [List.getElem?_cons_succ] at hget
      simp only [List.set, List.filter]
      cases hpx : p x <;> simp [ih hget, List.filter, hpx]

theorem length_filter_enum (n : Nat) (l : List EvalRecord)
    (f : EvalRecord → Bool) :
    ((enumRecs n l).filter (fun p => f p.2)).length = (l.filter f).length := by
  induction l generalizing n with
  | nil => rfl
  | cons x xs ih =>
    simp only [enumRecs, List.filter]
    cases hfx : f x <;> simp [List.filter, hfx, ih]

theorem completedPairsCount_eq (pid : String) (records : List EvalRecord) :
    completedPairsCount pid records
      = (records.filter (fun r =>
          (r.status == "completed") && (r.participant_id == pid))).length := by
  unfold completedPairsCount participantPairs
  rw [List.filter_filter, ← length_filter_enum 0 records
    (fun r => (r.status == "completed") && (r.participant_id == pid))]

theorem participantPairs_mem {pid : String} {records : List EvalRecord}
    {i : Nat} {r : EvalRecord} :
    (i, r) ∈ participantPairs pid records ↔
      records[i]? = some r ∧ r.participant_id == pid := by
  unfold participantPairs
  rw [List.mem_filter]
  constructor
  · rintro ⟨hmem, hpid⟩
    obtain ⟨k, hk, hget⟩ := mem_enumRecs.mp hmem
    exact ⟨by simpa [hk] using hget, hpid⟩
  · rintro ⟨hget, hpid⟩
    exact ⟨mem_enumRecs.mpr ⟨i, by omega, hget⟩, hpid⟩

theorem gcs_cases (pid : String) (now : Nat) (records : List EvalRecord) :
    (records.isEmpty = true ∧
      get_current_slot_for_participant pid now records =
        ⟨records, none, none, .storeEmpty⟩) ∨
    (records.isEmpty = false ∧ (participantPairs pid records).isEmpty = true ∧
      get_current_slot_for_participant pid now records =
        ⟨records, none, none, .participantNotFound⟩) ∨
    (∃ i r, (sortBySlot (participantPairs pid records)).find?
        (fun p => gcsPred p.2) = some (i, r) ∧
      get_current_slot_for_participant pid now records =
        ⟨records.set i { r with start_timestamp := some now },
         some { r with start_timestamp := some now }, some i,
         .slotStarted⟩) ∨
    (records.isEmpty = false ∧ (participantPairs pid records).isEmpty = false ∧
      (sortBySlot (participantPairs pid records)).find?
        (fun p => gcsPred p.2) = none ∧
      get_current_slot_for_participant pid now records =
        ⟨records, none, none, .allComplete⟩) := by
  unfold get_current_slot_for_participant
  by_cases h1 : records.isEmpty
  · exact Or.inl ⟨h1, by simp [h1]⟩
  · by_cases h2 : (participantPairs pid records).isEmpty
    · exact Or.inr (Or.inl ⟨by simpa using h1, h2, by simp [h1, h2]⟩)
    · cases hf : (sortBySlot (participantPairs pid records)).find?
          (fun p => gcsPred p.2) with
      | none =>
        exact Or.inr (Or.inr (Or.inr ⟨by simpa using h1, by simpa using h2,
          rfl, by simp [h1, h2, hf]⟩))
      | some x =>
        exact Or.inr (Or.inr (Or.inl ⟨x.1, x.2, rfl,
          by simp [h1, h2, hf]⟩))

theorem handle_interruption_of_find {pick : Nat} {pid : String} {slot : Nat}
    {paper : String} {records : List EvalRecord} {i : Nat} {r : EvalRecord}
    (hf : (enumRecs 0 records).find? (fun p => matchIRec pid slot paper p.2)
      = some (i, r)) :
    handle_interruption pick pid slot paper records =
      match select_replacement_paper pick (addExclusion r paper) with
      | some rep =>
          (records.set i { addExclusion r paper with
            paper_id := rep, status := "assigned",
            start_timestamp := none }, true)
      | none => (records, false) := by
  unfold handle_interruption
  rw [enumRecs_ne_nil hf]
  simp [hf]

theorem handle_completion_of_find {now : Nat} {pid : String} {slot : Nat}
    {data : EvalData} {records : List EvalRecord} {i : Nat} {r : EvalRecord}
    (hf : (enumRecs 0 records).find? (fun p => matchCRec pid slot p.2)
      = some (i, r)) :
    handle_completion now pid slot data records =
      (records.set i { r with
        status := "completed", processed := true,
        submit_timestamp := some now,
        work_duration := computeWorkDuration now r.start_timestamp,
        evaluation := data.evaluation.getD "",
        action := data.action.getD "",
        summary := data.summary.getD "" }, true) := by
  unfold handle_completion
  rw [enumRecs_ne_nil hf]
  simp [hf]

theorem handle_completion_success {now : Nat} {pid : String} {slot : Nat}
    {data : EvalData} {records records2 : List EvalRecord}
    (h : handle_completion now pid slot data records = (records2, true)) :
    ∃ i r, (enumRecs 0 records).find? (fun p => matchCRec pid slot p.2)
        = some (i, r) ∧
      records2 = records.set i { r with
        status := "completed", processed := true,
        submit_timestamp := some now,
        work_duration := computeWorkDuration now r.start_timestamp,
        evaluation := data.evaluation.getD "",
        action := data.action.getD "",
        summary := data.summary.getD "" } := by
  unfold handle_completion at h
  by_cases h1 : records.isEmpty
  · simp [h1] at h
  · rw [if_neg h1] at h
    cases hf : (enumRecs 0 records).find? (fun p => matchCRec pid slot p.2)
      with
    | none => rw [hf] at h; simp at h
    | some x =>
      rw [hf] at h
      simp only [Prod.mk.injEq] at h
      exact ⟨x.1, x.2, rfl, h.1.symm⟩

theorem gcsPred_iff {r : EvalRecord} :
    gcsPred r = true ↔ r.status = "assigned" ∧ r.processed = false := by
  simp [gcsPred, Bool.and_eq_true]

theorem matchCRec_iff {pid : String} {slot : Nat} {r : EvalRecord} :
    matchCRec pid slot r = true ↔
      r.participant_id = pid ∧ r.slot = slot ∧ r.processed = false := by
  simp [matchCRec, Bool.and_eq_true, and_assoc]

theorem matchIRec_iff {pid : String} {slot : Nat} {paper : String}
    {r : EvalRecord} :
    matchIRec pid slot paper r = true ↔
      r.participant_id = pid ∧ r.slot = slot ∧ r.paper_id = paper := by
  simp [matchIRec, Bool.and_eq_true, and_assoc]

theorem participantPairs_ne_nil_iff {pid : String}
    {records : List EvalRecord} :
    participantPairs pid records ≠ [] ↔
      records.filter (fun r => r.participant_id == pid) ≠ [] := by
  have hlen : (participantPairs pid records).length
      = (records.filter (fun r => r.participant_id == pid)).length :=
    length_filter_enum 0 records (fun r => r.participant_id == pid)
  constructor
  · intro h hc
    exact h (List.length_eq_zero.mp (by rw [hlen, hc]; rfl))
  · intro h hc
    exact h (List.length_eq_zero.mp (by rw [← hlen, hc]; rfl))

theorem progress_completed_slots (pid : String) (records : List EvalRecord)
    (hne : participantPairs pid records ≠ []) :
    (get_participant_progress pid records).completed_slots
      = completedPairsCount pid records := by
  unfold get_participant_progress
  rw [if_neg (by simp [List.isEmpty_iff, hne])]
  cases hf : (sortBySlot (participantPairs pid records)).find?
      (fun p => !(p.2.status == "completed")) <;> rfl

theorem hi_cases (pick : Nat) (pid : String) (slot : Nat) (paper : String)
    (records : List EvalRecord) :
    handle_interruption pick pid slot paper records = (records, false) ∨
    (∃ i r rep,
      (enumRecs 0 records).find? (fun p => matchIRec pid slot paper p.2)
        = some (i, r) ∧
      select_replacement_paper pick (addExclusion r paper) = some rep ∧
      handle_interruption pick pid slot paper records =
        (records.set i { addExclusion r paper with
          paper_id := rep,
          status := "assigned", start_timestamp := none }, true)) := by
  unfold handle_interruption
  by_cases h1 : records.isEmpty
  · simp [h1]
  · rw [if_neg h1]
    cases hf : (enumRecs 0 records).find?
        (fun p => matchIRec pid slot paper p.2) with
    | none => exact Or.inl rfl
    | some x =>
      cases hs : select_replacement_paper pick (addExclusion x.2 paper) with
      | none => exact Or.inl (by simp [hs])
      | some rep => exact Or.inr ⟨x.1, x.2, rep, rfl, hs, by simp [hs]⟩

theorem hc_cases (now : Nat) (pid : String) (slot : Nat) (data : EvalData)
    (records : List EvalRecord) :
    handle_completion now pid slot data records = (records, false) ∨
    (∃ i r,
      (enumRecs 0 records).find? (fun p => matchCRec pid slot p.2)
        = some (i, r) ∧
      handle_completion now pid slot data records =
        (records.set i { r with
          status := "completed", processed := true,
          submit_timestamp := some now,
          work_duration := computeWorkDuration now r.start_timestamp,
          evaluation := data.evaluation.getD "",
          action := data.action.getD "",
          summary := data.summary.getD "" }, true)) := by
  unfold handle_completion
  by_cases h1 : records.isEmpty
  · simp [h1]
  · rw [if_neg h1]
    cases hf : (enumRecs 0 records).find? (fun p => matchCRec pid slot p.2)
      with
    | none => exact Or.inl rfl
    | some x => exact Or.inr ⟨x.1, x.2, rfl, rfl⟩

theorem handle_interruption_success {pick : Nat} {pid : String} {slot : Nat}
    {paper : String} {records records2 : List EvalRecord}
    (h : handle_interruption pick pid slot paper records = (records2, true)) :
    ∃ i r rep,
      (enumRecs 0 records).find? (fun p => matchIRec pid slot paper p.2)
        = some (i, r) ∧
      select_replacement_paper pick (addExclusion r paper) = some rep ∧
      records2 = records.set i { addExclusion r paper with
        paper_id := rep,
        status := "assigned", start_timestamp := none } := by
  rcases hi_cases pick pid slot paper records with hc | ⟨i, r, rep, hf, hs, he⟩
  · rw [hc] at h; cases h
  · rw [he] at h
    simp only [Prod.mk.injEq] at h
    exact ⟨i, r, rep, hf, hs, h.1.symm⟩

theorem select_replacement_spec {pick : Nat} {r : EvalRecord} {rep : String}
    (h : select_replacement_paper pick r = some rep) :
    rep ∈ allPapers ∧ rep ∉ r.excluded_papers := by
  unfold select_replacement_paper at h
  by_cases he : ((allPapers.filter
      (fun p => !(r.excluded_papers.contains p))).isEmpty)
  · rw [if_pos he] at h; cases h
  · rw [if_neg he] at h
    have hmem := List.getElem?_mem h
    have := List.mem_filter.mp hmem
    refine ⟨this.1, ?_⟩
    have hb := this.2
    simp only [Bool.not_eq_true'] at hb
    simpa using hb

theorem addExclusion_frame (r : EvalRecord) (paper : String) :
    (addExclusion r paper).participant_id = r.participant_id ∧
    (addExclusion r paper).slot = r.slot ∧
    (addExclusion r paper).paper_id = r.paper_id ∧
    (addExclusion r paper).has_summary = r.has_summary ∧
    (addExclusion r paper).status = r.status ∧
    (addExclusion r paper).processed = r.processed ∧
    (addExclusion r paper).start_timestamp = r.start_timestamp ∧
    (addExclusion r paper).submit_timestamp = r.submit_timestamp ∧
    (addExclusion r paper).work_duration = r.work_duration ∧
    (addExclusion r paper).evaluation = r.evaluation ∧
    (addExclusion r paper).action = r.action ∧
    (addExclusion r paper).summary = r.summary := by
  unfold addExclusion
  split <;> simp

theorem gcs_chosen_spec {pid : String} {now : Nat} {l : List EvalRecord}
    {j : Nat}
    (h : (get_current_slot_for_participant pid now l).chosen = some j) :
    ∃ s, l[j]? = some s ∧ gcsPred s = true := by
  rcases gcs_cases pid now l with ⟨_, he⟩ | ⟨_, _, he⟩ | ⟨i, r, hf, he⟩ |
    ⟨_, _, _, he⟩ <;> rw [he] at h
  · cases h
  · cases h
  · have hij : i = j := by simpa using h
    have hmem := List.mem_of_find?_eq_some hf
    have hmem2 := mem_sortBySlot.mp hmem
    have hmem3 := participantPairs_mem.mp hmem2
    exact ⟨r, hij ▸ hmem3.1, by simpa using List.find?_some hf⟩
  · cases h

theorem applyOp_set_shape (op : Op) (l : List EvalRecord) :
    applyOp l op = l ∨
    ∃ j s s2, l[j]? = some s ∧ applyOp l op = l.set j s2 ∧
      (s2.processed = s.processed ∨ s2.processed = true) := by
  cases op with
  | getslot pid now =>
    rcases gcs_cases pid now l with ⟨_, he⟩ | ⟨_, _, he⟩ | ⟨i, r, hf, he⟩ |
      ⟨_, _, _, he⟩
    · exact Or.inl (by simp [applyOp, he])
    · exact Or.inl (by simp [applyOp, he])
    · have hmem := participantPairs_mem.mp (mem_sortBySlot.mp
        (List.mem_of_find?_eq_some hf))
      exact Or.inr ⟨i, r, { r with start_timestamp := some now }, hmem.1,
        by simp [applyOp, he], Or.inl rfl⟩
    · exact Or.inl (by simp [applyOp, he])
  | interrupt pick pid slot paper =>
    rcases hi_cases pick pid slot paper l with hc | ⟨i, r, rep, hf, hs, he⟩
    · exact Or.inl (by simp [applyOp, hc])
    · have hget : l[i]? = some r := by
        obtain ⟨k, hk, hg⟩ := mem_enumRecs.mp (List.mem_of_find?_eq_some hf)
        simpa [hk] using hg
      exact Or.inr ⟨i, r, { addExclusion r paper with
        paper_id := rep, status := "assigned", start_timestamp := none },
        hget, by simp [applyOp, he],
        Or.inl (addExclusion_frame r paper).2.2.2.2.2.1⟩
  | complete now pid slot data =>
    rcases hc_cases now pid slot data l with hc | ⟨i, r, hf, he⟩
    · exact Or.inl (by simp [applyOp, hc])
    · have hget : l[i]? = some r := by
        obtain ⟨k, hk, hg⟩ := mem_enumRecs.mp (List.mem_of_find?_eq_some hf)
        simpa [hk] using hg
      exact Or.inr ⟨i, r, { r with
        status := "completed", processed := true,
        submit_timestamp := some now,
        work_duration := computeWorkDuration now r.start_timestamp,
        evaluation := data.evaluation.getD "",
        action := data.action.getD "",
        summary := data.summary.getD "" }, hget, by simp [applyOp, he],
        Or.inr rfl⟩

theorem processed_stable_applyOps (ops : List Op) :
    ∀ (l : List EvalRecord) (i : Nat) (r : EvalRecord),
      l[i]? = some r → r.processed = true →
      ∃ r2, (applyOps l ops)[i]? = some r2 ∧ r2.processed = true := by
  induction ops with
  | nil => exact fun l i r h hp => ⟨r, h, hp⟩
  | cons op ops ih =>
    intro l i r h hp
    have hstep : ∃ r2, (applyOp l op)[i]? = some r2 ∧ r2.processed = true := by
      rcases applyOp_set_shape op l with he | ⟨j, s, s2, hj, he, hs2⟩
      · exact ⟨r, by rw [he]; exact h, hp⟩
      · by_cases hij : i = j
        · subst hij
          have hlt : i < l.length := (List.getElem?_eq_some_iff.mp h).1
          have hrs : r = s := by
            rw [h] at hj
            exact Option.some.inj hj
          refine ⟨s2, ?_, ?_⟩
          · rw [he]
            exact List.getElem?_set_self hlt
          · rcases hs2 with h2 | h2
            · rw [h2, ← hrs]
              exact hp
            · exact h2
        · refine ⟨r, ?_, hp⟩
          rw [he, List.getElem?_set_ne (fun hh => hij hh.symm)]
          exact h
    obtain ⟨r2, h2, hp2⟩ := hstep
    have : applyOps l (op :: ops) = applyOps (applyOp l op) ops := rfl
    rw [this]
    exact ih (applyOp l op) i r2 h2 hp2

/-! ## Claim theorems -/

/-- C1: the audit mirror's header row (RESULTS_HEADERS) declares action as
column 7 and evaluation as column 8, but the row that
save_interruption_to_sheets appends carries the empty string at position 7
and the INTERRUPTED marker at position 8, and the row that
save_completion_to_sheets appends carries the evaluation text at position 7
and the action text at position 8: both rows have the action and evaluation
cells swapped relative to the code's own header, so the marker does not
land in the action column as the claim states. -/
theorem c1_audit_row_columns_swapped :
    RESULTS_HEADERS[6]? = some "action" ∧
    RESULTS_HEADERS[7]? = some "evaluation" ∧
    (interruption_row "alice" "3" "5" "t1" "t2")[6]? = some "" ∧
    (interruption_row "alice" "3" "5" "t1" "t2")[7]?
      = some "INTERRUPTED (replaced with 5)" ∧
    (completion_row { mkRec "alice" 1 "2" "completed" true with
      evaluation := "EV", action := "AC", summary := "SU" } "s" "e" "t")[6]?
      = some "EV" ∧
    (completion_row { mkRec "alice" 1 "2" "completed" true with
      evaluation := "EV", action := "AC", summary := "SU" } "s" "e" "t")[7]?
      = some "AC" := by
  decide

/-- C10: a participant with no records in the collection gets the
fresh-start progress dict (0 completed, current slot 1, 4 total), not an
error and not the all-done sentinel. -/
theorem c10_no_records_fresh_progress (pid : String)
    (records : List EvalRecord)
    (h : records.filter (fun r => r.participant_id == pid) = []) :
    get_participant_progress pid records = ⟨0, 1, 4⟩ := by
  unfold get_participant_progress
  rw [if_pos]
  rw [List.isEmpty_iff]
  by_contra hne
  exact (participantPairs_ne_nil_iff.mp hne) h

/-- C10 witness: the sample collection holds no records for carol. -/
theorem c10_no_records_fresh_progress_witness :
    get_participant_progress "carol" demoRecords = ⟨0, 1, 4⟩ :=
  c10_no_records_fresh_progress "carol" demoRecords (by decide)

/-- C3 counterexample: a participant whose single record has status
"assigned" but processed true; get_current_slot selects no record, yet
get_participant_progress reports current_slot 1, not the sentinel 5, so
current_slot is not 5 exactly when the selection is empty. -/
theorem c3_counterexample :
    (get_current_slot_for_participant "p" 100 c3CexRecords).result = none ∧
    (get_participant_progress "p" c3CexRecords).current_slot = 1 ∧
    (get_participant_progress "p" c3CexRecords).current_slot ≠ 5 := by
  decide

/-- C6 counterexample: on a record whose excluded_papers already lists the
id twice, the exclusion step of an interruption leaves it twice, not
exactly once, both in the in-memory step and in the persisted collection
of a successful interruption. -/
theorem c6_counterexample :
    ((addExclusion (mkRec "p" 1 "3" "assigned" false ["3", "3"]) "3"
      ).excluded_papers.count "3" = 2) ∧
    ((handle_interruption 0 "p" 1 "3" c6CexRecords).1.head?.map
      (fun r => r.excluded_papers.count "3") = some 2) := by
  decide

/-- C7 counterexample: completing a record whose start_timestamp is the
epoch value 0 at time 100 stores work_duration 0, while the claim's
formula now - start_timestamp gives 100: Python treats the zero
start_timestamp as falsy, beyond the missing/null cases the claim lists. -/
theorem c7_counterexample :
    ((handle_completion 100 "p" 1 ⟨some "e", some "a", some "s"⟩
        c7CexRecords).1.head?.map (fun r => r.work_duration) = some 0) ∧
    ((100 : Int) - 0 ≠ 0) := by
  decide

/-- C4: when the matched record's exclusion list already contains every
catalog paper at replacement-selection time (after the exclusion step),
handle_interruption returns false and the persisted collection is exactly
the pre-call collection: the in-memory exclusion append is never saved. -/
theorem c4_exhausted_interruption_fails (pick : Nat) (pid : String)
    (slot : Nat) (paper : String) (records : List EvalRecord) (i : Nat)
    (r : EvalRecord)
    (hf : (enumRecs 0 records).find? (fun p => matchIRec pid slot paper p.2)
      = some (i, r))
    (hex : ∀ p ∈ allPapers, p ∈ (addExclusion r paper).excluded_papers) :
    handle_interruption pick pid slot paper records = (records, false) := by
  rw [handle_interruption_of_find hf]
  have hnil : (allPapers.filter
      (fun p => !((addExclusion r paper).excluded_papers.contains p)))
      = [] := by
    rw [List.filter_eq_nil_iff]
    intro a ha
    simp [hex a ha]
  have hsel : select_replacement_paper pick (addExclusion r paper) = none := by
    unfold select_replacement_paper
    rw [hnil]
    rfl
  rw [hsel]

/-- C4 witness: a record already excluding all six catalog papers; its
interruption fails and the collection is untouched. -/
theorem c4_exhausted_interruption_fails_witness :
    handle_interruption 0 "p" 1 "6" c4Records = (c4Records, false) :=
  c4_exhausted_interruption_fails 0 "p" 1 "6" c4Records 0
    (mkRec "p" 1 "6" "assigned" false ["1", "2", "3", "4", "5", "6"])
    (by decide) (by decide)

/-- C5: a successful interruption only rewrites the matched record in
place: slot, has_summary, participant_id and the completion fields are
unchanged, the record stays in the collection (same length, same index),
only paper_id (to a fresh catalog paper), status, start_timestamp and
excluded_papers (grown by at most the interrupted id) change. -/
theorem c5_interruption_frame (pick : Nat) (pid : String) (slot : Nat)
    (paper : String) (records records2 : List EvalRecord)
    (h : handle_interruption pick pid slot paper records
      = (records2, true)) :
    ∃ i r r2 rep, records[i]? = some r ∧
      r.participant_id = pid ∧ r.slot = slot ∧ r.paper_id = paper ∧
      records2 = records.set i r2 ∧
      records2.length = records.length ∧
      r2.slot = r.slot ∧ r2.has_summary = r.has_summary ∧
      r2.participant_id = r.participant_id ∧
      r2.status = "assigned" ∧ r2.start_timestamp = none ∧
      r2.paper_id = rep ∧ rep ∈ allPapers ∧ rep ∉ r2.excluded_papers ∧
      r2.submit_timestamp = r.submit_timestamp ∧
      r2.work_duration = r.work_duration ∧
      r2.evaluation = r.evaluation ∧ r2.action = r.action ∧
      r2.summary = r.summary ∧
      (r2.excluded_papers = r.excluded_papers ∨
        r2.excluded_papers = r.excluded_papers ++ [paper]) := by
  obtain ⟨i, r, rep, hf, hs, he⟩ := handle_interruption_success h
  have hget : records[i]? = some r := by
    obtain ⟨k, hk, hg⟩ := mem_enumRecs.mp (List.mem_of_find?_eq_some hf)
    simpa [hk] using hg
  have hmatch := matchIRec_iff.mp (by simpa using List.find?_some hf)
  have hrep := select_replacement_spec hs
  have hfr := addExclusion_frame r paper
  refine ⟨i, r, { addExclusion r paper with
    paper_id := rep, status := "assigned", start_timestamp := none },
    rep, hget, hmatch.1, hmatch.2.1, hmatch.2.2, he,
    by rw [he]; exact List.length_set _ _ _,
    hfr.2.1, hfr.2.2.2.1, hfr.1, rfl, rfl, rfl, hrep.1, hrep.2,
    hfr.2.2.2.2.2.2.2.1, hfr.2.2.2.2.2.2.2.2.1, hfr.2.2.2.2.2.2.2.2.2.1,
    hfr.2.2.2.2.2.2.2.2.2.2.1, hfr.2.2.2.2.2.2.2.2.2.2.2, ?_⟩
  unfold addExclusion
  split
  · exact Or.inl rfl
  · exact Or.inr rfl

/-- C5 witness: interrupting the freshly seeded slot 1 of alice succeeds
and satisfies the frame conditions. -/
theorem c5_interruption_frame_witness :
    ∃ i r r2 rep, aliceFresh[i]? = some r ∧
      r.participant_id = "alice" ∧ r.slot = 1 ∧ r.paper_id = "1" ∧
      (handle_interruption 0 "alice" 1 "1" aliceFresh).1
        = aliceFresh.set i r2 ∧
      (handle_interruption 0 "alice" 1 "1" aliceFresh).1.length
        = aliceFresh.length ∧
      r2.slot = r.slot ∧ r2.has_summary = r.has_summary ∧
      r2.participant_id = r.participant_id ∧
      r2.status = "assigned" ∧ r2.start_timestamp = none ∧
      r2.paper_id = rep ∧ rep ∈ allPapers ∧ rep ∉ r2.excluded_papers ∧
      r2.submit_timestamp = r.submit_timestamp ∧
      r2.work_duration = r.work_duration ∧
      r2.evaluation = r.evaluation ∧ r2.action = r.action ∧
      r2.summary = r.summary ∧
      (r2.excluded_papers = r.excluded_papers ∨
        r2.excluded_papers = r.excluded_papers ++ ["1"]) :=
  c5_interruption_frame 0 "alice" 1 "1" aliceFresh
    (handle_interruption 0 "alice" 1 "1" aliceFresh).1 (by decide)

theorem addExclusion_idem (r : EvalRecord) (paper : String) :
    addExclusion (addExclusion r paper) paper = addExclusion r paper := by
  by_cases h : r.excluded_papers.contains paper = true
  · have e1 : addExclusion r paper = r := by
      unfold addExclusion
      rw [if_pos h]
    rw [e1]
    exact e1
  · have e1 : addExclusion r paper
        = { r with excluded_papers := r.excluded_papers ++ [paper] } := by
      unfold addExclusion
      rw [if_neg h]
    rw [e1]
    unfold addExclusion
    split
    · rfl
    · next h2 =>
        exfalso
        apply h2
        simp

theorem addExclusion_count (r : EvalRecord) (paper : String)
    (h : r.excluded_papers.count paper ≤ 1) :
    (addExclusion r paper).excluded_papers.count paper = 1 := by
  unfold addExclusion
  by_cases hc : r.excluded_papers.contains paper
  · rw [if_pos hc]
    have hmem : paper ∈ r.excluded_papers := by simpa using hc
    have := List.count_pos_iff.mpr hmem
    omega
  · rw [if_neg hc]
    have hmem : paper ∉ r.excluded_papers := by simpa using hc
    simp [List.count_append, List.count_eq_zero.mpr hmem]

theorem addExclusion_grow (r : EvalRecord) (paper : String) :
    ∃ t, (addExclusion r paper).excluded_papers
      = r.excluded_papers ++ t := by
  unfold addExclusion
  split
  · exact ⟨[], by simp⟩
  · exact ⟨[paper], rfl⟩

theorem hi_grow (pick : Nat) (pid : String) (slot : Nat) (paper : String)
    (records : List EvalRecord) (i : Nat) (s : EvalRecord)
    (hget : records[i]? = some s) :
    ∃ s2 t, (handle_interruption pick pid slot paper records).1[i]?
        = some s2 ∧
      s2.excluded_papers = s.excluded_papers ++ t := by
  rcases hi_cases pick pid slot paper records with hc | ⟨j, r, rep, hf, hs, he⟩
  · exact ⟨s, [], by simp [hc, hget], by simp⟩
  · rw [he]
    by_cases hij : i = j
    · subst hij
      have hjr : records[i]? = some r := by
        obtain ⟨k, hk, hg⟩ := mem_enumRecs.mp (List.mem_of_find?_eq_some hf)
        simpa [hk] using hg
      have hsr : s = r := by
        rw [hget] at hjr
        exact Option.some.inj hjr
      obtain ⟨t, ht⟩ := addExclusion_grow r paper
      have hlt : i < records.length := (List.getElem?_eq_some_iff.mp hget).1
      refine ⟨{ addExclusion r paper with
        paper_id := rep, status := "assigned", start_timestamp := none },
        t, ?_, ?_⟩
      · simpa using List.getElem?_set_self hlt
      · rw [hsr]
        exact ht
    · exact ⟨s, [], by
        simp only [List.getElem?_set_ne (fun hh => hij hh.symm)]
        simpa using hget, by simp⟩

theorem hi_count_invariant (pick : Nat) (pid : String) (slot : Nat)
    (paper : String) (records : List EvalRecord)
    (h : ∀ s ∈ records, s.excluded_papers.count paper ≤ 1) :
    ∀ s ∈ (handle_interruption pick pid slot paper records).1,
      s.excluded_papers.count paper ≤ 1 := by
  rcases hi_cases pick pid slot paper records with hc | ⟨j, r, rep, hf, hs, he⟩
  · rw [hc]
    exact h
  · rw [he]
    intro s hsmem
    rcases List.mem_or_eq_of_mem_set hsmem with hmem | hset
    · exact h s hmem
    · have hjr : records[j]? = some r := by
        obtain ⟨k, hk, hg⟩ := mem_enumRecs.mp (List.mem_of_find?_eq_some hf)
        simpa [hk] using hg
      have hr : r ∈ records := List.getElem?_mem hjr
      have : s.excluded_papers = (addExclusion r paper).excluded_papers := by
        rw [hset]
      rw [this, addExclusion_count r paper (h r hr)]

/-- C6 (amended): adding the interrupted id to a record whose exclusion
list holds it at most once leaves it exactly once; the add is idempotent;
exclusion lists only ever grow (append-only), both in the exclusion step
and across a whole interruption call; and when every record starts with
the id at most once, two interruption calls for the same arguments still
leave every persisted record with the id at most once. -/
theorem c6_exclusion_idempotent (r : EvalRecord) (paper : String)
    (pick1 pick2 : Nat) (pid : String) (slot : Nat)
    (records : List EvalRecord) :
    (addExclusion (addExclusion r paper) paper = addExclusion r paper) ∧
    (r.excluded_papers.count paper ≤ 1 →
      (addExclusion r paper).excluded_papers.count paper = 1) ∧
    (∃ t, (addExclusion r paper).excluded_papers
      = r.excluded_papers ++ t) ∧
    (∀ (i : Nat) (s : EvalRecord), records[i]? = some s →
      ∃ (s2 : EvalRecord) (t : List String),
        (handle_interruption pick1 pid slot paper records).1[i]?
          = some s2 ∧
        s2.excluded_papers = s.excluded_papers ++ t) ∧
    ((∀ s ∈ records, s.excluded_papers.count paper ≤ 1) →
      ∀ s ∈ (handle_interruption pick2 pid slot paper
          (handle_interruption pick1 pid slot paper records).1).1,
        s.excluded_papers.count paper ≤ 1) := by
  refine ⟨addExclusion_idem r paper, addExclusion_count r paper,
    addExclusion_grow r paper,
    fun i s hget => hi_grow pick1 pid slot paper records i s hget,
    fun h => hi_count_invariant pick2 pid slot paper _
      (hi_count_invariant pick1 pid slot paper records h)⟩

/-- C6 witness: a fresh one-record collection, interrupted twice for the
same paper; the exclusion facts hold concretely. -/
theorem c6_exclusion_idempotent_witness :
    ((addExclusion (mkRec "p" 1 "1" "assigned" false) "1"
      ).excluded_papers.count "1" = 1) ∧
    (∀ s ∈ (handle_interruption 1 "p" 1 "1"
        (handle_interruption 0 "p" 1 "1"
          [mkRec "p" 1 "1" "assigned" false]).1).1,
      s.excluded_papers.count "1" ≤ 1) := by
  have h := c6_exclusion_idempotent (mkRec "p" 1 "1" "assigned" false) "1"
    0 1 "p" 1 [mkRec "p" 1 "1" "assigned" false]
  exact ⟨h.2.1 (by decide), h.2.2.2.2 (by decide)⟩

/-- C7 (amended): a successful completion call on the matched unprocessed
record sets status completed, processed true, submit_timestamp now,
work_duration now - start_timestamp — where a missing, null, or zero
start_timestamp yields zero duration — copies the three text fields with
missing keys as empty strings, and persists the updated collection in
place. -/
theorem c7_completion_updates (now : Nat) (pid : String) (slot : Nat)
    (data : EvalData) (records : List EvalRecord) (i : Nat) (r : EvalRecord)
    (hf : (enumRecs 0 records).find? (fun p => matchCRec pid slot p.2)
      = some (i, r)) :
    r.processed = false ∧
    (handle_completion now pid slot data records).2 = true ∧
    ∃ r2 : EvalRecord,
      (handle_completion now pid slot data records).1 = records.set i r2 ∧
      r2.status = "completed" ∧ r2.processed = true ∧
      r2.submit_timestamp = some now ∧
      (r.start_timestamp = none → r2.work_duration = 0) ∧
      (r.start_timestamp = some 0 → r2.work_duration = 0) ∧
      (∀ st : Nat, r.start_timestamp = some st → st ≠ 0 →
        r2.work_duration = (now : Int) - (st : Int)) ∧
      r2.evaluation = data.evaluation.getD "" ∧
      r2.action = data.action.getD "" ∧
      r2.summary = data.summary.getD "" ∧
      r2.participant_id = r.participant_id ∧ r2.slot = r.slot := by
  have hm := matchCRec_iff.mp (by simpa using List.find?_some hf)
  have he := @handle_completion_of_find now pid slot data records i r hf
  refine ⟨hm.2.2, by rw [he], { r with
    status := "completed", processed := true,
    submit_timestamp := some now,
    work_duration := computeWorkDuration now r.start_timestamp,
    evaluation := data.evaluation.getD "",
    action := data.action.getD "",
    summary := data.summary.getD "" }, by rw [he], rfl, rfl, rfl,
    ?_, ?_, ?_, rfl, rfl, rfl, rfl, rfl⟩
  · intro h
    show computeWorkDuration now r.start_timestamp = 0
    rw [h]
    rfl
  · intro h
    show computeWorkDuration now r.start_timestamp = 0
    rw [h]
    rfl
  · intro st h hst
    show computeWorkDuration now r.start_timestamp = (now : Int) - (st : Int)
    rw [h]
    simp [computeWorkDuration, hst]

/-- C7 witness: completing the sample record started at time 40, at time
100, stores duration 60 and the submitted text fields. -/
theorem c7_completion_updates_witness :
    ∃ r2 : EvalRecord,
      (handle_completion 100 "p" 1 ⟨some "ev", none, some "su"⟩
        c7WitRecords).1 = c7WitRecords.set 0 r2 ∧
      r2.status = "completed" ∧ r2.processed = true ∧
      r2.submit_timestamp = some 100 ∧
      r2.work_duration = (100 : Int) - (40 : Int) ∧
      r2.evaluation = "ev" ∧ r2.action = "" ∧ r2.summary = "su" := by
  have h := c7_completion_updates 100 "p" 1 ⟨some "ev", none, some "su"⟩
    c7WitRecords 0 (mkRec "p" 1 "1" "assigned" false [] (some 40))
    (by decide)
  obtain ⟨-, -, r2, he, hst, hpr, hsub, -, -, hwd, hev, hac, hsu, -, -⟩ := h
  exact ⟨r2, he, hst, hpr, hsub, hwd 40 rfl (by decide), hev, hac, hsu⟩

/-- C2: get_current_slot_for_participant returns, among the participant's
records, one with status "assigned" and processed false whose slot is
minimal, with its start_timestamp stamped to now, and persists the
collection with exactly that record updated in place; it returns None
exactly when no record of the participant satisfies the predicate, and
then it persists nothing. -/
theorem c2_selection_rule (pid : String) (now : Nat)
    (records : List EvalRecord) :
    (∀ res : EvalRecord,
      (get_current_slot_for_participant pid now records).result = some res →
      ∃ (i : Nat) (r : EvalRecord), records[i]? = some r ∧
        r.participant_id = pid ∧ r.status = "assigned" ∧
        r.processed = false ∧
        res = { r with start_timestamp := some now } ∧
        (get_current_slot_for_participant pid now records).records
          = records.set i res ∧
        (get_current_slot_for_participant pid now records).chosen
          = some i ∧
        (∀ (j : Nat) (s : EvalRecord), records[j]? = some s →
          s.participant_id = pid → s.status = "assigned" →
          s.processed = false → r.slot ≤ s.slot)) ∧
    ((get_current_slot_for_participant pid now records).result = none →
      (get_current_slot_for_participant pid now records).records = records ∧
      ∀ (j : Nat) (s : EvalRecord), records[j]? = some s →
        s.participant_id = pid →
        ¬(s.status = "assigned" ∧ s.processed = false)) := by
  rcases gcs_cases pid now records with ⟨h1, he⟩ | ⟨h1, h2, he⟩ |
    ⟨i, r, hf, he⟩ | ⟨h1, h2, hf, he⟩
  · constructor
    · intro res hres
      rw [he] at hres
      cases hres
    · intro _
      refine ⟨by rw [he], ?_⟩
      intro j s hget _
      rw [List.isEmpty_iff.mp h1] at hget
      simp at hget
  · constructor
    · intro res hres
      rw [he] at hres
      cases hres
    · intro _
      refine ⟨by rw [he], ?_⟩
      intro j s hget hpid
      exfalso
      have hmem : (j, s) ∈ participantPairs pid records :=
        participantPairs_mem.mpr ⟨hget, by simp [hpid]⟩
      rw [List.isEmpty_iff.mp h2] at hmem
      simp at hmem
  · constructor
    · intro res hres
      rw [he] at hres
      have hres2 : res = { r with start_timestamp := some now } :=
        (Option.some.inj hres).symm
      have hp := gcsPred_iff.mp (by simpa using List.find?_some hf)
      have hmem := participantPairs_mem.mp
        (mem_sortBySlot.mp (List.mem_of_find?_eq_some hf))
      refine ⟨i, r, hmem.1, by simpa using hmem.2, hp.1, hp.2, hres2,
        by rw [he, hres2], by rw [he], ?_⟩
      intro j s hget hspid hsst hsproc
      have hjs : (j, s) ∈ sortBySlot (participantPairs pid records) :=
        mem_sortBySlot.mpr (participantPairs_mem.mpr
          ⟨hget, by simp [hspid]⟩)
      exact find?_min_slot (sorted_sortBySlot _) hf (j, s) hjs
        (by simp [gcsPred, hsst, hsproc])
    · intro hnone
      rw [he] at hnone
      cases hnone
  · constructor
    · intro res hres
      rw [he] at hres
      cases hres
    · intro _
      refine ⟨by rw [he], ?_⟩
      intro j s hget hspid hcontra
      have hjs : (j, s) ∈ sortBySlot (participantPairs pid records) :=
        mem_sortBySlot.mpr (participantPairs_mem.mpr
          ⟨hget, by simp [hspid]⟩)
      exact (List.find?_eq_none.mp hf (j, s) hjs)
        (by simp [gcsPred, hcontra.1, hcontra.2])

/-- C2 witness: on the out-of-order sample collection, alice's slot-1
record (at position 2) is selected, stamped, and persisted in place. -/
theorem c2_selection_rule_witness :
    ∃ (i : Nat) (r : EvalRecord), demoRecords[i]? = some r ∧
      r.participant_id = "alice" ∧ r.status = "assigned" ∧
      r.processed = false ∧
      ({ mkRec "alice" 1 "1" "assigned" false with
        start_timestamp := some 100 } : EvalRecord)
        = { r with start_timestamp := some 100 } ∧
      (get_current_slot_for_participant "alice" 100 demoRecords).records
        = demoRecords.set i { mkRec "alice" 1 "1" "assigned" false with
          start_timestamp := some 100 } ∧
      (get_current_slot_for_participant "alice" 100 demoRecords).chosen
        = some i ∧
      (∀ (j : Nat) (s : EvalRecord), demoRecords[j]? = some s →
        s.participant_id = "alice" → s.status = "assigned" →
        s.processed = false → r.slot ≤ s.slot) :=
  (c2_selection_rule "alice" 100 demoRecords).1
    { mkRec "alice" 1 "1" "assigned" false with start_timestamp := some 100 }
    (by decide)

/-- C3 (amended): for a participant who has at least one record and all of
whose records are either assigned-and-unprocessed or completed (the states
the seeded lifecycle produces), the progress report agrees with the
selection rule: completed_slots counts the participant's completed
records, and current_slot is the slot of the record the selection engine
returns, or the sentinel 5 exactly when it returns none. -/
theorem c3_progress_agrees_with_selection (pid : String) (now : Nat)
    (records : List EvalRecord)
    (hne : records.filter (fun r => r.participant_id == pid) ≠ [])
    (hwf : ∀ r ∈ records, r.participant_id = pid →
      (r.status = "assigned" ∧ r.processed = false) ∨
        r.status = "completed") :
    (get_participant_progress pid records).completed_slots
      = ((records.filter (fun r => r.participant_id == pid)).filter
          (fun r => r.status == "completed")).length ∧
    (match (get_current_slot_for_participant pid now records).result with
      | some res => (get_participant_progress pid records).current_slot
          = res.slot
      | none =>
          (get_participant_progress pid records).current_slot = 5) := by
  have hne2 : participantPairs pid records ≠ [] :=
    participantPairs_ne_nil_iff.mpr hne
  have hrne : records ≠ [] := by
    intro hc
    rw [hc] at hne
    exact hne rfl
  have hprog : get_participant_progress pid records =
      match (sortBySlot (participantPairs pid records)).find?
          (fun p => !(p.2.status == "completed")) with
      | some q => ⟨completedPairsCount pid records, q.2.slot, 4⟩
      | none => ⟨completedPairsCount pid records, 5, 4⟩ := by
    unfold get_participant_progress
    rw [if_neg (by simp [List.isEmpty_iff, hne2])]
  have hcong : (sortBySlot (participantPairs pid records)).find?
      (fun p => gcsPred p.2) = (sortBySlot (participantPairs pid records)
      ).find? (fun p => !(p.2.status == "completed")) := by
    apply find?_congr
    intro x hx
    have hmem := participantPairs_mem.mp (mem_sortBySlot.mp hx)
    have hx2 := hwf x.2 (List.getElem?_mem hmem.1) (by simpa using hmem.2)
    rcases hx2 with ⟨ha, hp⟩ | hc
    · simp [gcsPred, ha, hp]
    · simp [gcsPred, hc]
  constructor
  · rw [progress_completed_slots pid records hne2, completedPairsCount_eq,
      List.filter_filter]
  · rcases gcs_cases pid now records with ⟨h1, he⟩ | ⟨h1, h2, he⟩ |
      ⟨i, r, hf, he⟩ | ⟨h1, h2, hf, he⟩
    · exact absurd (List.isEmpty_iff.mp h1) hrne
    · exact absurd (List.isEmpty_iff.mp h2) hne2
    · rw [he]
      show (get_participant_progress pid records).current_slot = r.slot
      rw [hprog, ← hcong, hf]
    · rw [he]
      show (get_participant_progress pid records).current_slot = 5
      rw [hprog, ← hcong, hf]

/-- C3 witness: on the sample collection, alice's progress is one
completed slot and the selection engine's slot-1 record is reported as
current. -/
theorem c3_progress_agrees_with_selection_witness :
    (get_participant_progress "alice" demoRecords).completed_slots
      = ((demoRecords.filter (fun r => r.participant_id == "alice")).filter
          (fun r => r.status == "completed")).length ∧
    (match (get_current_slot_for_participant "alice" 100
        demoRecords).result with
      | some res => (get_participant_progress "alice"
          demoRecords).current_slot = res.slot
      | none => (get_participant_progress "alice"
          demoRecords).current_slot = 5) :=
  c3_progress_agrees_with_selection "alice" 100 demoRecords (by decide)
    (by decide)

/-- C9: for a nonempty store, a participant with no records gets the
participant-not-found error outcome, while a participant whose records
are all completed gets the all-complete success outcome with a None
result, and the two outcomes are distinct values of the interface. -/
theorem c9_not_found_distinct (pid : String) (now : Nat)
    (records : List EvalRecord) :
    (records ≠ [] →
      records.filter (fun r => r.participant_id == pid) = [] →
      (get_current_slot_for_participant pid now records).outcome
        = GCSOutcome.participantNotFound) ∧
    (records.filter (fun r => r.participant_id == pid) ≠ [] →
      (∀ r ∈ records, r.participant_id = pid → r.status = "completed") →
      (get_current_slot_for_participant pid now records).outcome
        = GCSOutcome.allComplete ∧
      (get_current_slot_for_participant pid now records).result = none) ∧
    GCSOutcome.participantNotFound ≠ GCSOutcome.allComplete := by
  refine ⟨?_, ?_, by decide⟩
  · intro hrne hfe
    have hpe : participantPairs pid records = [] := by
      by_contra hc
      exact participantPairs_ne_nil_iff.mp hc hfe
    unfold get_current_slot_for_participant
    rw [if_neg (by simp [List.isEmpty_iff, hrne]),
      if_pos (by simp [List.isEmpty_iff, hpe])]
  · intro hfne hall
    have hne2 : participantPairs pid records ≠ [] :=
      participantPairs_ne_nil_iff.mpr hfne
    have hrne : records ≠ [] := by
      intro hc
      rw [hc] at hfne
      exact hfne rfl
    have hfind : (sortBySlot (participantPairs pid records)).find?
        (fun p => gcsPred p.2) = none := by
      rw [List.find?_eq_none]
      intro x hx
      have hmem := participantPairs_mem.mp (mem_sortBySlot.mp hx)
      have hc := hall x.2 (List.getElem?_mem hmem.1) (by simpa using hmem.2)
      simp [gcsPred, hc]
    unfold get_current_slot_for_participant
    rw [if_neg (by simp [List.isEmpty_iff, hrne]),
      if_neg (by simp [List.isEmpty_iff, hne2]), hfind]
    exact ⟨rfl, rfl⟩

/-- C9 witness: carol has no records in the sample store and gets the
not-found outcome; alice with four completed records gets all-complete. -/
theorem c9_not_found_distinct_witness :
    (get_current_slot_for_participant "carol" 100 demoRecords).outcome
      = GCSOutcome.participantNotFound ∧
    (get_current_slot_for_participant "alice" 100 aliceDone).outcome
      = GCSOutcome.allComplete := by
  have h1 := (c9_not_found_distinct "carol" 100 demoRecords).1
    (by decide) (by decide)
  have h2 := ((c9_not_found_distinct "alice" 100 aliceDone).2.1
    (by decide) (by decide)).1
  exact ⟨h1, h2⟩

theorem wf_applyOp (op : Op) (l : List EvalRecord)
    (h : ∀ s ∈ l, s.processed = false → s.status ≠ "completed") :
    ∀ s ∈ applyOp l op, s.processed = false → s.status ≠ "completed" := by
  cases op with
  | getslot pid now =>
    rcases gcs_cases pid now l with ⟨_, he⟩ | ⟨_, _, he⟩ | ⟨i, r, hf, he⟩ |
      ⟨_, _, _, he⟩
    · simpa [applyOp, he] using h
    · simpa [applyOp, he] using h
    · intro s hs
      simp only [applyOp, he] at hs
      rcases List.mem_or_eq_of_mem_set hs with hmem | hset
      · exact h s hmem
      · have hmem := participantPairs_mem.mp (mem_sortBySlot.mp
          (List.mem_of_find?_eq_some hf))
        have hr := h r (List.getElem?_mem hmem.1)
        rw [hset]
        exact hr
    · simpa [applyOp, he] using h
  | interrupt pick pid slot paper =>
    rcases hi_cases pick pid slot paper l with hc | ⟨i, r, rep, hf, hsel, he⟩
    · simpa [applyOp, hc] using h
    · intro s hs
      simp only [applyOp, he] at hs
      rcases List.mem_or_eq_of_mem_set hs with hmem | hset
      · exact h s hmem
      · intro _
        rw [hset]
        simp
  | complete now pid slot data =>
    rcases hc_cases now pid slot data l with hc | ⟨i, r, hf, he⟩
    · simpa [applyOp, hc] using h
    · intro s hs
      simp only [applyOp, he] at hs
      rcases List.mem_or_eq_of_mem_set hs with hmem | hset
      · exact h s hmem
      · intro hp
        rw [hset] at hp
        cases hp

theorem wf_applyOps (ops : List Op) :
    ∀ (l : List EvalRecord),
      (∀ s ∈ l, s.processed = false → s.status ≠ "completed") →
      ∀ s ∈ applyOps l ops, s.processed = false →
        s.status ≠ "completed" := by
  induction ops with
  | nil => exact fun l h => h
  | cons op ops ih => exact fun l h => ih (applyOp l op) (wf_applyOp op l h)

/-- C8: under the lifecycle invariant that no unprocessed record carries
status "completed" (true of seeded data and preserved by every engine
call), a successful completion raises the participant's completed_slots by
exactly one, and the completed record — identified by its position in the
collection — is never again chosen by get_current_slot_for_participant
after any later sequence of engine calls, because its processed flag stays
true forever. -/
theorem c8_completion_terminal (now : Nat) (pid : String) (slot : Nat)
    (data : EvalData) (records records2 : List EvalRecord)
    (hwf : ∀ s ∈ records, s.processed = false → s.status ≠ "completed")
    (hc : handle_completion now pid slot data records = (records2, true)) :
    (get_participant_progress pid records2).completed_slots
      = (get_participant_progress pid records).completed_slots + 1 ∧
    ∃ (i : Nat) (r : EvalRecord), records[i]? = some r ∧
      r.participant_id = pid ∧ r.slot = slot ∧ r.processed = false ∧
      ∀ (ops : List Op) (pid2 : String) (now2 : Nat),
        (get_current_slot_for_participant pid2 now2
          (applyOps records2 ops)).chosen ≠ some i := by
  obtain ⟨i, r, hf, he⟩ := handle_completion_success hc
  have hm := matchCRec_iff.mp (by simpa using List.find?_some hf)
  have hget : records[i]? = some r := by
    obtain ⟨k, hk, hg⟩ := mem_enumRecs.mp (List.mem_of_find?_eq_some hf)
    simpa [hk] using hg
  have hlt : i < records.length := (List.getElem?_eq_some_iff.mp hget).1
  have hget2 : records2[i]? = some { r with
      status := "completed", processed := true,
      submit_timestamp := some now,
      work_duration := computeWorkDuration now r.start_timestamp,
      evaluation := data.evaluation.getD "",
      action := data.action.getD "",
      summary := data.summary.getD "" } := by
    rw [he]
    exact List.getElem?_set_self hlt
  constructor
  · have hp1 : participantPairs pid records ≠ [] :=
      List.ne_nil_of_mem (participantPairs_mem.mpr ⟨hget, by simp [hm.1]⟩)
    have hp2 : participantPairs pid records2 ≠ [] :=
      List.ne_nil_of_mem (participantPairs_mem.mpr ⟨hget2, by simp [hm.1]⟩)
    rw [progress_completed_slots pid records2 hp2,
      progress_completed_slots pid records hp1,
      completedPairsCount_eq, completedPairsCount_eq, he]
    exact filter_length_set_succ hget
      (by simp [hwf r (List.getElem?_mem hget) hm.2.2])
      (by simp [hm.1])
  · refine ⟨i, r, hget, hm.1, hm.2.1, hm.2.2, ?_⟩
    intro ops pid2 now2 hch
    obtain ⟨r3, h3, hp3⟩ := processed_stable_applyOps ops records2 i _
      hget2 rfl
    obtain ⟨s, hs, hpred⟩ := gcs_chosen_spec hch
    rw [h3] at hs
    have hsr : r3 = s := Option.some.inj hs
    have hsp : s.processed = false := (gcsPred_iff.mp hpred).2
    rw [hsr, hsp] at hp3
    cases hp3

/-- C8 witness: completing alice's fresh slot 1 raises her completed count
from 0 to 1, and after a further engine call her slot-1 record (position
0) is no longer chosen. -/
theorem c8_completion_terminal_witness :
    (get_participant_progress "alice"
      (handle_completion 100 "alice" 1 ⟨some "x", some "y", some "z"⟩
        aliceFresh).1).completed_slots
      = (get_participant_progress "alice" aliceFresh).completed_slots
        + 1 ∧
    ∃ (i : Nat) (r : EvalRecord), aliceFresh[i]? = some r ∧
      r.participant_id = "alice" ∧ r.slot = 1 ∧ r.processed = false ∧
      (get_current_slot_for_participant "alice" 200
        (applyOps (handle_completion 100 "alice" 1
          ⟨some "x", some "y", some "z"⟩ aliceFresh).1
          [Op.getslot "alice" 150])).chosen ≠ some i := by
  have h := c8_completion_terminal 100 "alice" 1
    ⟨some "x", some "y", some "z"⟩ aliceFresh
    (handle_completion 100 "alice" 1 ⟨some "x", some "y", some "z"⟩
      aliceFresh).1 (by decide) (by decide)
  obtain ⟨i, r, hget, ha, hb, hcp, hall⟩ := h.2
  exact ⟨h.1, i, r, hget, ha, hb, hcp,
    hall [Op.getslot "alice" 150] "alice" 200⟩

end EmergingInfectionForm
